import Mathlib

/-!
Shallow embedding of the geometry kernel of the `ai-3d-generator` repository
(`src/core/mesh_processing/mesh_utils.py` and `src/core/text_to_3d/base_model.py`).

Conventions of the embedding:

* Vertex arrays of shape (N,3) are `List (Vec3 α)` and face arrays of shape
  (M,3) are `List Face` with `Face = Int × Int × Int`; the row length 3 is
  carried by the product type, so the `ndim == 2 and shape[1] == 3` checks of
  the source always pass for representable inputs, exactly as they do for a
  numpy array of shape (N,3).
* Floating point scalars are modelled by an arbitrary `LinearOrderedField α`;
  the transcendental operations used by the source (`np.sqrt` inside
  `np.linalg.norm`, `np.cos`, `np.sin`, `np.pi`) are supplied by a `NumOps α`
  record, so every definition stays computable and witnesses can be evaluated
  at `α = ℚ`.
* numpy integer fancy indexing `vertices[face]` is modelled by `npGet`:
  an index `i` with `0 ≤ i < N` selects row `i`, an index with `-N ≤ i < 0`
  wraps to row `N + i` (numpy negative indexing), anything else raises
  `IndexError`, modelled as `none`.
* A Python `try: ... except: ...` around a whole loop is modelled by an
  accumulator recursion that discards the accumulator and returns the
  `except` branch's value as soon as one step fails.
-/

/-- A 3d point or vector, one row of an (N,3) numpy array. -/
abbrev Vec3 (α : Type) := α × α × α

/-- One row of an (M,3) face array: three signed integer vertex indices. -/
abbrev Face := Int × Int × Int

/-- The numeric operations of numpy that are not exact field operations.
The source uses `np.linalg.norm` (a square root of a sum of squares),
`np.cos`, `np.sin` and `np.pi`; packaging them as a record keeps the
embedding computable and lets witnesses instantiate them over `ℚ`. -/
structure NumOps (α : Type) where
  sqrt : α → α
  cos : α → α
  sin : α → α
  pi : α

variable {α : Type} [LinearOrderedField α]

/-- Componentwise vector subtraction, `a - b`. -/
def vsub (a b : Vec3 α) : Vec3 α :=
  (a.1 - b.1, a.2.1 - b.2.1, a.2.2 - b.2.2)

/-- Componentwise vector addition. -/
def vadd (a b : Vec3 α) : Vec3 α :=
  (a.1 + b.1, a.2.1 + b.2.1, a.2.2 + b.2.2)

/-- The cross product `np.cross a b`. -/
def cross (a b : Vec3 α) : Vec3 α :=
  (a.2.1 * b.2.2 - a.2.2 * b.2.1,
   a.2.2 * b.1 - a.1 * b.2.2,
   a.1 * b.2.1 - a.2.1 * b.1)

/-- The dot product `np.dot a b`. -/
def dot (a b : Vec3 α) : α :=
  a.1 * b.1 + a.2.1 * b.2.1 + a.2.2 * b.2.2

/-- Squared euclidean norm; `np.linalg.norm v` is `sqrt (normSq v)`. -/
def normSq (a : Vec3 α) : α := dot a a

/-- numpy row lookup `vertices[i]` for a signed index: indices in `[0, N)`
select directly, indices in `[-N, 0)` wrap to `N + i`, and anything else
raises `IndexError`, modelled as `none`. -/
def npGet (vs : List (Vec3 α)) (i : Int) : Option (Vec3 α) :=
  let n : Int := vs.length
  if 0 ≤ i ∧ i < n then vs.get? i.toNat
  else if -n ≤ i ∧ i < 0 then vs.get? (i + n).toNat
  else none

/-- The destructuring `v0, v1, v2 = vertices[face[:3]]`: all three lookups
must succeed, otherwise the indexing raises. -/
def faceTriple (vs : List (Vec3 α)) (f : Face) : Option (Vec3 α × Vec3 α × Vec3 α) :=
  match npGet vs f.1, npGet vs f.2.1, npGet vs f.2.2 with
  | some a, some b, some c => some (a, b, c)
  | _, _, _ => none

/-- The per-triangle area term of `_estimate_surface_area`:
`np.linalg.norm (np.cross (v1 - v0) (v2 - v0)) / 2`. -/
def triArea (ops : NumOps α) (a b c : Vec3 α) : α :=
  ops.sqrt (normSq (cross (vsub b a) (vsub c a))) / 2

/-- Loop body of `MeshProcessor._estimate_surface_area`: the whole `for` loop
sits inside a single `try`, so the first face whose indexing raises aborts the
loop, discards the running total and returns the `except` value `0.0`. -/
def estimateSurfaceAreaGo (ops : NumOps α) (vs : List (Vec3 α)) :
    α → List Face → α
  | acc, [] => acc
  | acc, f :: rest =>
    match faceTriple vs f with
    | some (a, b, c) => estimateSurfaceAreaGo ops vs (acc + triArea ops a b c) rest
    | none => 0

/-- `MeshProcessor._estimate_surface_area` (mesh_utils.py lines 166-186). -/
def estimateSurfaceArea (ops : NumOps α) (vs : List (Vec3 α)) (fs : List Face) : α :=
  estimateSurfaceAreaGo ops vs 0 fs

/-- Modelled from the spec: the surface-area semantics the spec describes,
in which "any face causing an index error is skipped silently and computation
continues with the next face", returning the partial sum over valid faces.
This is the comparison point for claim C1; the source code differs. -/
def specSurfaceAreaGo (ops : NumOps α) (vs : List (Vec3 α)) :
    α → List Face → α
  | acc, [] => acc
  | acc, f :: rest =>
    match faceTriple vs f with
    | some (a, b, c) => specSurfaceAreaGo ops vs (acc + triArea ops a b c) rest
    | none => specSurfaceAreaGo ops vs acc rest

/-- Modelled from the spec: partial-sum surface area that skips invalid faces. -/
def specSurfaceArea (ops : NumOps α) (vs : List (Vec3 α)) (fs : List Face) : α :=
  specSurfaceAreaGo ops vs 0 fs

/-- The signed tetrahedron term `np.dot (v0, np.cross (v1, v2)) / 6`. -/
def tetVol (a b c : Vec3 α) : α :=
  dot a (cross b c) / 6

/-- Loop of `MeshProcessor._estimate_volume`: one `try` around the whole loop,
so a raising face aborts and yields `0.0`; on success the absolute value is
applied once, to the final total. -/
def estimateVolumeGo (vs : List (Vec3 α)) : α → List Face → Option α
  | acc, [] => some acc
  | acc, f :: rest =>
    match faceTriple vs f with
    | some (a, b, c) => estimateVolumeGo vs (acc + tetVol a b c) rest
    | none => none

/-- `MeshProcessor._estimate_volume` (mesh_utils.py lines 188-204):
`abs` of the accumulated signed total, `0.0` if the loop raised. -/
def estimateVolume (vs : List (Vec3 α)) (fs : List Face) : α :=
  match estimateVolumeGo vs 0 fs with
  | some total => |total|
  | none => 0

/-- Loop of `BaseText3DModel._estimate_volume` (base_model.py lines 99-111):
same abort semantics, but the per-face increment is
`np.abs (np.dot (v0, np.cross (v1, v2))) / 6.0` — absolute value per face. -/
def baseEstimateVolumeGo (vs : List (Vec3 α)) : α → List Face → Option α
  | acc, [] => some acc
  | acc, f :: rest =>
    match faceTriple vs f with
    | some (a, b, c) => baseEstimateVolumeGo vs (acc + |dot a (cross b c)| / 6) rest
    | none => none

/-- `BaseText3DModel._estimate_volume`: the metadata `volume_estimate`. -/
def baseEstimateVolume (vs : List (Vec3 α)) (fs : List Face) : α :=
  match baseEstimateVolumeGo vs 0 fs with
  | some total => total
  | none => 0

/-- The signed tetrahedron volume contributed by one face (`0` for a face
that cannot be indexed; the claims using this assume in-range indices). -/
def signedTerm (vs : List (Vec3 α)) (f : Face) : α :=
  match faceTriple vs f with
  | some (a, b, c) => tetVol a b c
  | none => 0

/-- The per-face absolute tetrahedron volume used by
`BaseText3DModel._estimate_volume`. -/
def absTerm (vs : List (Vec3 α)) (f : Face) : α :=
  match faceTriple vs f with
  | some (a, b, c) => |dot a (cross b c)| / 6
  | none => 0

/-- The triangle area contributed by one face (`0` for a face that cannot
be indexed). -/
def areaTerm (ops : NumOps α) (vs : List (Vec3 α)) (f : Face) : α :=
  match faceTriple vs f with
  | some (a, b, c) => triArea ops a b c
  | none => 0

/-- Modelled from the spec wording of claim C2: the sum over faces of the
signed tetrahedron volumes. -/
def specSignedVolumeSum (vs : List (Vec3 α)) (fs : List Face) : α :=
  (fs.map (signedTerm vs)).sum

/-- The corresponding sum of per-face absolute values. -/
def specAbsVolumeSum (vs : List (Vec3 α)) (fs : List Face) : α :=
  (fs.map (absTerm vs)).sum

/-- Running minimum `xs.foldl min x`, modelling `np.min` along one component. -/
def foldMin (x : α) (xs : List α) : α := xs.foldl min x

/-- Running maximum `xs.foldl max x`, modelling `np.max` along one component. -/
def foldMax (x : α) (xs : List α) : α := xs.foldl max x

/-- The dictionary returned by `MeshProcessor._calculate_bounding_box`.
The empty-input branch of the source builds a dictionary with only the keys
`min`, `max` and `size`; the `center` key exists only in the non-empty branch,
hence an `Option` field. -/
structure BBox (α : Type) where
  bmin : Vec3 α
  bmax : Vec3 α
  bsize : Vec3 α
  bcenter : Option (Vec3 α)
deriving Repr, DecidableEq

/-- `MeshProcessor._calculate_bounding_box` (mesh_utils.py lines 149-164):
empty input returns the zero box without a `center` key; otherwise
componentwise `np.min`/`np.max`, `size = max - min`,
`center = (min + max) / 2`. -/
def calcBoundingBox : List (Vec3 α) → BBox α
  | [] => ⟨(0, 0, 0), (0, 0, 0), (0, 0, 0), none⟩
  | v :: rest =>
    let mn : Vec3 α :=
      (foldMin v.1 (rest.map (fun u => u.1)),
       foldMin v.2.1 (rest.map (fun u => u.2.1)),
       foldMin v.2.2 (rest.map (fun u => u.2.2)))
    let mx : Vec3 α :=
      (foldMax v.1 (rest.map (fun u => u.1)),
       foldMax v.2.1 (rest.map (fun u => u.2.1)),
       foldMax v.2.2 (rest.map (fun u => u.2.2)))
    ⟨mn, mx, vsub mx mn,
      some ((mn.1 + mx.1) / 2, (mn.2.1 + mx.2.1) / 2, (mn.2.2 + mx.2.2) / 2)⟩

/-- The `stats` dictionary built by `MeshProcessor.validate_mesh`.  The two
optional trimesh-derived keys `is_manifold` / `is_watertight` come from an
external library that is not part of this repository and only ever add
warnings, so they are not modelled. -/
structure MeshStats (α : Type) where
  vertex_count : Nat
  face_count : Nat
  bounding_box : BBox α
  surface_area : α
  volume : α
deriving Repr, DecidableEq

/-- The validation dictionary of `MeshProcessor.validate_mesh`. -/
structure ValidationReport (α : Type) where
  is_valid : Bool
  errors : List String
  warnings : List String
  stats : MeshStats α
deriving Repr, DecidableEq

/-- `MeshProcessor.validate_mesh` (mesh_utils.py lines 82-147).  The two
shape checks (`ndim != 2 or shape[1] != 3`) always pass for inputs
representable as lists of triples, exactly as for numpy arrays of shape
(N,3)/(M,3), so they append nothing.  The remaining checks run in source
order, each appending its error string; `is_valid` is set to `False` by any
failed check.  The statistics are computed unconditionally afterwards
(the estimator functions swallow their own exceptions and return floats,
so the stats assignment itself never raises).  The trailing trimesh-based
analysis touches only `warnings` and the optional stats keys and is delegated
to an external library, so the model leaves `warnings` empty. -/
def validateMesh (ops : NumOps α) (vs : List (Vec3 α)) (fs : List Face) :
    ValidationReport α :=
  let maxIdx : Int := (vs.length : Int) - 1
  let errs : List String :=
    (if vs.length = 0 then ["No vertices found"] else []) ++
    (if fs.length = 0 then ["No faces found"] else []) ++
    (if fs.any (fun f => f.1 > maxIdx || f.2.1 > maxIdx || f.2.2 > maxIdx) then
      ["Face indices exceed vertex count"] else []) ++
    (if fs.any (fun f => f.1 < 0 || f.2.1 < 0 || f.2.2 < 0) then
      ["Negative face indices found"] else [])
  { is_valid := errs.isEmpty
    errors := errs
    warnings := []
    stats :=
      { vertex_count := vs.length
        face_count := fs.length
        bounding_box := calcBoundingBox vs
        surface_area := estimateSurfaceArea ops vs fs
        volume := estimateVolume vs fs } }

/-- The merge criterion of `_remove_duplicate_vertices`:
`np.allclose (vertex, unique_vertex, atol := tolerance)`.  `np.allclose`
keeps its default relative tolerance `rtol = 1e-5`, so componentwise
`|a - b| ≤ atol + rtol * |b|` where `b` is the already-kept vertex. -/
def allcloseB (tol : α) (a b : Vec3 α) : Bool :=
  decide (|a.1 - b.1| ≤ tol + (1 / 100000) * |b.1|) &&
  decide (|a.2.1 - b.2.1| ≤ tol + (1 / 100000) * |b.2.1|) &&
  decide (|a.2.2 - b.2.2| ≤ tol + (1 / 100000) * |b.2.2|)

/-- The inner scan of `_remove_duplicate_vertices`: index of the first kept
vertex that is `allclose` to `v` (the Python `for j, unique_vertex ...`
with `break`), `none` when no kept vertex matches. -/
def findClose (tol : α) (v : Vec3 α) : List (Vec3 α) → Option Nat
  | [] => none
  | u :: us =>
    if allcloseB tol v u then some 0
    else (findClose tol v us).map (· + 1)

/-- The outer loop of `_remove_duplicate_vertices`, carrying the list of kept
vertices; returns the final kept list together with the mapping list whose
`i`-th entry is `vertex_mapping[i]` for the `i`-th processed vertex. -/
def weldGo (tol : α) (uniq : List (Vec3 α)) :
    List (Vec3 α) → List (Vec3 α) × List Nat
  | [] => (uniq, [])
  | v :: rest =>
    match findClose tol v uniq with
    | some j =>
      let r := weldGo tol uniq rest
      (r.1, j :: r.2)
    | none =>
      let r := weldGo tol (uniq ++ [v]) rest
      (r.1, uniq.length :: r.2)

/-- `MeshProcessor._remove_duplicate_vertices` (mesh_utils.py lines 243-272).
The face-remapping loop looks rows up in the `vertex_mapping` dictionary,
whose keys are exactly `0 .. N-1`; a face index outside that range raises
`KeyError`, and the surrounding `except` then returns the original arrays
unchanged, which is what the range guard models. -/
def removeDuplicateVertices (tol : α) (vs : List (Vec3 α)) (fs : List Face) :
    List (Vec3 α) × List Face :=
  let r := weldGo tol [] vs
  if fs.all (fun f =>
      decide (0 ≤ f.1 ∧ f.1 < (vs.length : Int)) &&
      decide (0 ≤ f.2.1 ∧ f.2.1 < (vs.length : Int)) &&
      decide (0 ≤ f.2.2 ∧ f.2.2 < (vs.length : Int))) then
    (r.1, fs.map (fun f =>
      ((r.2.getD f.1.toNat 0 : Int),
       (r.2.getD f.2.1.toNat 0 : Int),
       (r.2.getD f.2.2.toNat 0 : Int))))
  else (vs, fs)

/-- The keep-test of `_remove_degenerate_faces` (mesh_utils.py lines 274-294):
a face is kept when its three indices are pairwise distinct
(`len (set (face)) == 3`), its rows can be looked up (an `IndexError` is
caught and the face skipped), and `np.linalg.norm (np.cross (edge1, edge2))`
exceeds `1e-10`.  Note the source compares the cross-product norm itself,
without the division by 2 that would turn it into the triangle area. -/
def keepFaceB (ops : NumOps α) (vs : List (Vec3 α)) (f : Face) : Bool :=
  if f.1 ≠ f.2.1 ∧ f.2.1 ≠ f.2.2 ∧ f.1 ≠ f.2.2 then
    match faceTriple vs f with
    | some (a, b, c) =>
      decide ((1 : α) / 10000000000 < ops.sqrt (normSq (cross (vsub b a) (vsub c a))))
    | none => false
  else false

/-- The accumulation loop of `_remove_degenerate_faces`. -/
def degGo (ops : NumOps α) (vs : List (Vec3 α)) : List Face → List Face
  | [] => []
  | f :: rest =>
    if keepFaceB ops vs f then f :: degGo ops vs rest else degGo ops vs rest

/-- `MeshProcessor._remove_degenerate_faces`: keep the non-degenerate faces in
order; if none survive, return the original face array unchanged
(`np.array (valid_faces) if valid_faces else faces`). -/
def removeDegenerateFaces (ops : NumOps α) (vs : List (Vec3 α)) (fs : List Face) :
    List Face :=
  let valid := degGo ops vs fs
  if valid.isEmpty then fs else valid

/-- Modelled from the spec wording of claim C7: a face is dropped when it
repeats a vertex index or its triangle area (cross-product norm divided
by 2) is at most `1e-10`; same all-dropped fallback.  This is the comparison
point for the counterexample; the source omits the division by 2. -/
def specKeepFaceB (ops : NumOps α) (vs : List (Vec3 α)) (f : Face) : Bool :=
  if f.1 ≠ f.2.1 ∧ f.2.1 ≠ f.2.2 ∧ f.1 ≠ f.2.2 then
    match faceTriple vs f with
    | some (a, b, c) =>
      decide ((1 : α) / 10000000000 < triArea ops a b c)
    | none => false
  else false

/-- Modelled from the spec wording of claim C7: degenerate-face removal with
the area (not cross-norm) threshold. -/
def specRemoveDegenerateFaces (ops : NumOps α) (vs : List (Vec3 α))
    (fs : List Face) : List Face :=
  let valid := fs.filter (specKeepFaceB ops vs)
  if valid.isEmpty then fs else valid

/-- `DemoText3DModel._create_cube` (base_model.py lines 195-212). -/
def createCube (size : α) : List (Vec3 α) × List Face :=
  let s := size / 2
  ([(-s, -s, -s), (s, -s, -s), (s, s, -s), (-s, s, -s),
    (-s, -s, s), (s, -s, s), (s, s, s), (-s, s, s)],
   [(0, 1, 2), (0, 2, 3),
    (4, 7, 6), (4, 6, 5),
    (0, 4, 5), (0, 5, 1),
    (2, 6, 7), (2, 7, 3),
    (0, 3, 7), (0, 7, 4),
    (1, 5, 6), (1, 6, 2)])

/-- Vertex loop of `DemoText3DModel._create_sphere`: latitude index
`i ∈ [0, 16]`, longitude index `j ∈ [0, 32]`,
`lat = π * (-1/2 + i/16)`, `lon = 2π * j / 32`, radius `size / 2`. -/
def sphereVertices (ops : NumOps α) (size : α) : List (Vec3 α) :=
  let radius := size / 2
  (List.range 17).flatMap (fun i =>
    (List.range 33).map (fun j =>
      let lat := ops.pi * (-(1 / 2) + (i : α) / 16)
      let lon := 2 * ops.pi * (j : α) / 32
      (radius * ops.cos lat * ops.cos lon,
       radius * ops.sin lat,
       radius * ops.cos lat * ops.sin lon)))

/-- Face loop of `DemoText3DModel._create_sphere`: for `i ∈ [0, 16)` and
`j ∈ [0, 32)`, with `first = i * 33 + j` and `second = first + 33`, the two
triangles `[first, second, first+1]` and `[second, second+1, first+1]`. -/
def sphereFaces : List Face :=
  (List.range 16).flatMap (fun i =>
    (List.range 32).flatMap (fun j =>
      let first := i * 33 + j
      let second := first + 33
      [((first : Int), (second : Int), (first + 1 : Int)),
       ((second : Int), (second + 1 : Int), (first + 1 : Int))]))

/-- `DemoText3DModel._create_sphere` (base_model.py lines 214-244). -/
def createSphere (ops : NumOps α) (size : α) : List (Vec3 α) × List Face :=
  (sphereVertices ops size, sphereFaces)

/-- Vertex loop of `DemoText3DModel._create_cylinder`: bottom and top centers
first, then for each of the 16 segments the bottom-ring and top-ring vertex,
at angle `2π i / 16`, radius `size / 2`, height `size`. -/
def cylinderVertices (ops : NumOps α) (size : α) : List (Vec3 α) :=
  let radius := size / 2
  let height := size
  ((0, -(height / 2), 0) : Vec3 α) :: ((0, height / 2, 0) : Vec3 α) ::
  (List.range 16).flatMap (fun i =>
    let angle := 2 * ops.pi * (i : α) / 16
    let x := radius * ops.cos angle
    let z := radius * ops.sin angle
    [(x, -(height / 2), z), (x, height / 2, z)])

/-- Face loops of `DemoText3DModel._create_cylinder`: 16 bottom-cap fans,
then 16 top-cap fans, then two side triangles per segment, with
`next_i = (i + 1) % 16`. -/
def cylinderFaces : List Face :=
  ((List.range 16).map (fun i =>
    let next := (i + 1) % 16
    ((0 : Int), (2 + i * 2 : Int), (2 + next * 2 : Int)))) ++
  ((List.range 16).map (fun i =>
    let next := (i + 1) % 16
    ((1 : Int), (3 + next * 2 : Int), (3 + i * 2 : Int)))) ++
  ((List.range 16).flatMap (fun i =>
    let next := (i + 1) % 16
    [((2 + i * 2 : Int), (3 + i * 2 : Int), (2 + next * 2 : Int)),
     ((3 + i * 2 : Int), (3 + next * 2 : Int), (2 + next * 2 : Int))]))

/-- `DemoText3DModel._create_cylinder` (base_model.py lines 246-288). -/
def createCylinder (ops : NumOps α) (size : α) : List (Vec3 α) × List Face :=
  (cylinderVertices ops size, cylinderFaces)

/-- `DemoText3DModel._create_pyramid` (base_model.py lines 290-312). -/
def createPyramid (size : α) : List (Vec3 α) × List Face :=
  let s := size / 2
  let h := size
  ([(-s, -(h / 2), -s), (s, -(h / 2), -s), (s, -(h / 2), s), (-s, -(h / 2), s),
    (0, h / 2, 0)],
   [(0, 1, 2), (0, 2, 3),
    (0, 4, 1), (1, 4, 2), (2, 4, 3), (3, 4, 0)])

/-- ASCII whitespace as recognized by Python's `str.split` on ASCII input. -/
def isWS (c : Char) : Bool :=
  c = ' ' || c = '\t' || c = '\n' || c = '\r' ||
  c = Char.ofNat 11 || c = Char.ofNat 12

/-- Accumulating scan behind `pyWords`: `cur` holds the current word reversed. -/
def pyWordsGo (cur : List Char) : List Char → List (List Char)
  | [] => if cur.isEmpty then [] else [cur.reverse]
  | c :: rest =>
    if isWS c then
      if cur.isEmpty then pyWordsGo [] rest
      else cur.reverse :: pyWordsGo [] rest
    else pyWordsGo (c :: cur) rest

/-- Python `s.split()`: maximal runs of non-whitespace characters, in order,
with empty words discarded (which also subsumes the preceding `strip`). -/
def pyWords (s : List Char) : List (List Char) := pyWordsGo [] s

/-- `BaseText3DModel.preprocess_prompt` cleaning step
(`" ".join (prompt.strip ().lower ().split ())`): lowercase, then join the
whitespace-separated words with single spaces. -/
def cleanPrompt (s : List Char) : List Char :=
  List.intercalate [' '] (pyWords (s.map Char.toLower))

/-- Whether `w` is an initial segment of `s` (helper for substring search). -/
def hasPre : List Char → List Char → Bool
  | [], _ => true
  | _ :: _, [] => false
  | a :: w, b :: s => a == b && hasPre w s

/-- Python's substring test `w in s` over character lists. -/
def occursIn (w : List Char) : List Char → Bool
  | [] => w.isEmpty
  | c :: rest => hasPre w (c :: rest) || occursIn w rest

/-- The banned-word list of `BaseText3DModel.preprocess_prompt`. -/
def bannedWords : List String := ["explicit", "inappropriate", "nsfw"]

/-- `BaseText3DModel.preprocess_prompt` (base_model.py lines 43-57): clean the
prompt and raise `ValueError` at the first banned word occurring in it. -/
def preprocessPrompt (p : List Char) : Except String (List Char) :=
  let cleaned := cleanPrompt p
  match bannedWords.find? (fun w => occursIn w.data cleaned) with
  | some w => Except.error ("Inappropriate content detected: " ++ w)
  | none => Except.ok cleaned

/-- Keyword lists of `DemoText3DModel._extract_shape_type`. -/
def sphereWords : List String := ["sphere", "ball", "round", "orb"]

/-- Cylinder keywords. -/
def cylinderWords : List String := ["cylinder", "tube", "pipe", "rod"]

/-- Pyramid keywords. -/
def pyramidWords : List String := ["pyramid", "triangle", "cone"]

/-- Small-size keywords of `DemoText3DModel._extract_size`. -/
def sizeSmallWords : List String := ["small", "tiny", "mini"]

/-- Large-size keywords of `DemoText3DModel._extract_size`. -/
def sizeLargeWords : List String := ["large", "big", "huge", "giant"]

/-- `DemoText3DModel._extract_shape_type` (base_model.py lines 175-184). -/
def extractShapeType (p : List Char) : String :=
  if sphereWords.any (fun w => occursIn w.data p) then "sphere"
  else if cylinderWords.any (fun w => occursIn w.data p) then "cylinder"
  else if pyramidWords.any (fun w => occursIn w.data p) then "pyramid"
  else "cube"

/-- `DemoText3DModel._extract_size` (base_model.py lines 186-193). -/
def extractSize (p : List Char) : α :=
  if sizeSmallWords.any (fun w => occursIn w.data p) then 1 / 2
  else if sizeLargeWords.any (fun w => occursIn w.data p) then 2
  else 1

/-- The metadata dictionary of `BaseText3DModel.postprocess_geometry`, plus
the `shape_type` / `generation_method` keys that `DemoText3DModel.generate_3d`
adds afterwards (empty strings until then). -/
structure GenMetadata (α : Type) where
  vertex_count : Nat
  face_count : Nat
  bbox_min : Vec3 α
  bbox_max : Vec3 α
  bbox_size : Vec3 α
  volume_estimate : α
  shape_type : String
  generation_method : String
deriving Repr, DecidableEq

/-- The result dictionary of `generate_3d`. -/
structure GenResult (α : Type) where
  vertices : List (Vec3 α)
  faces : List Face
  metadata : GenMetadata α
deriving Repr, DecidableEq

/-- `BaseText3DModel.postprocess_geometry` (base_model.py lines 59-97):
shape checks pass for typed (N,3)/(M,3) inputs; empty geometry raises
`ValueError`; otherwise componentwise bounding box and the per-face-absolute
volume estimate of `BaseText3DModel._estimate_volume`. -/
def postprocessGeometry (vs : List (Vec3 α)) (fs : List Face) :
    Except String (GenResult α) :=
  match vs, fs with
  | [], _ => Except.error "Empty geometry generated"
  | _ :: _, [] => Except.error "Empty geometry generated"
  | v :: rest, f :: frest =>
    let mn : Vec3 α :=
      (foldMin v.1 (rest.map (fun u => u.1)),
       foldMin v.2.1 (rest.map (fun u => u.2.1)),
       foldMin v.2.2 (rest.map (fun u => u.2.2)))
    let mx : Vec3 α :=
      (foldMax v.1 (rest.map (fun u => u.1)),
       foldMax v.2.1 (rest.map (fun u => u.2.1)),
       foldMax v.2.2 (rest.map (fun u => u.2.2)))
    Except.ok
      { vertices := v :: rest
        faces := f :: frest
        metadata :=
          { vertex_count := (v :: rest).length
            face_count := (f :: frest).length
            bbox_min := mn
            bbox_max := mx
            bbox_size := vsub mx mn
            volume_estimate := baseEstimateVolume (v :: rest) (f :: frest)
            shape_type := ""
            generation_method := "" } }

/-- `DemoText3DModel.generate_3d` (base_model.py lines 146-173): preprocess
the prompt (which can raise on banned words), pick the shape and size by
keyword matching, build the geometry, postprocess it, and stamp `shape_type`
and `generation_method`; every exception propagates to the caller. -/
def generate3d (ops : NumOps α) (prompt : List Char) : Except String (GenResult α) :=
  match preprocessPrompt prompt with
  | Except.error e => Except.error e
  | Except.ok cleaned =>
    let shapeType := extractShapeType cleaned
    let size : α := extractSize cleaned
    let vf : List (Vec3 α) × List Face :=
      if shapeType = "sphere" then createSphere ops size
      else if shapeType = "cylinder" then createCylinder ops size
      else if shapeType = "pyramid" then createPyramid size
      else createCube size
    match postprocessGeometry vf.1 vf.2 with
    | Except.error e => Except.error e
    | Except.ok r =>
      Except.ok
        { r with metadata :=
            { r.metadata with shape_type := shapeType, generation_method := "demo" } }

/-- Newton iteration for the integer square root, with explicit fuel so that
the recursion is structural and concrete values reduce inside the kernel. -/
def isqrtIter : Nat → Nat → Nat → Nat
  | 0, _, g => g
  | fuel + 1, n, g =>
    let next := (g + n / g) / 2
    if next < g then isqrtIter fuel n next else g

/-- Integer square root (floor), by Newton iteration from `n / 2`. -/
def isqrt (n : Nat) : Nat :=
  if n ≤ 1 then n else isqrtIter n n (n / 2)

/-- A rational square root that is exact whenever the numerator and
denominator of the (reduced) argument are perfect squares; all concrete
evaluations below apply the abstract square root only at such points, where
every function agreeing with the real square root takes the same value. -/
def ratSqrt (x : ℚ) : ℚ := (isqrt x.num.toNat : ℚ) / (isqrt x.den : ℚ)

/-- Concrete numeric operations over `ℚ` used to evaluate witnesses and
counterexamples; the trigonometric slots are never inspected by the
statements evaluated at this instantiation. -/
def ratOps : NumOps ℚ := ⟨ratSqrt, fun _ => 0, fun _ => 0, 0⟩

/-- All three indices of a face lie in `[0, n)`. -/
def faceInRange (n : Int) (f : Face) : Prop :=
  (0 ≤ f.1 ∧ f.1 < n) ∧ (0 ≤ f.2.1 ∧ f.2.1 < n) ∧ (0 ≤ f.2.2 ∧ f.2.2 < n)

instance (n : Int) (f : Face) : Decidable (faceInRange n f) := by
  unfold faceInRange; infer_instance

/-- The bounding-box characterization stated by claim C6 for non-empty input:
`bmin`/`bmax` are componentwise lower/upper bounds attained by some vertex in
each component, `bsize = bmax - bmin`, and `bcenter = (bmin + bmax) / 2`. -/
def IsBBoxOf (vs : List (Vec3 α)) (b : BBox α) : Prop :=
  (∀ v ∈ vs,
      b.bmin.1 ≤ v.1 ∧ b.bmin.2.1 ≤ v.2.1 ∧ b.bmin.2.2 ≤ v.2.2 ∧
      v.1 ≤ b.bmax.1 ∧ v.2.1 ≤ b.bmax.2.1 ∧ v.2.2 ≤ b.bmax.2.2) ∧
  (∃ u ∈ vs, u.1 = b.bmin.1) ∧ (∃ u ∈ vs, u.2.1 = b.bmin.2.1) ∧
  (∃ u ∈ vs, u.2.2 = b.bmin.2.2) ∧
  (∃ u ∈ vs, u.1 = b.bmax.1) ∧ (∃ u ∈ vs, u.2.1 = b.bmax.2.1) ∧
  (∃ u ∈ vs, u.2.2 = b.bmax.2.2) ∧
  b.bsize = vsub b.bmax b.bmin ∧
  b.bcenter = some
    ((b.bmin.1 + b.bmax.1) / 2, (b.bmin.2.1 + b.bmax.2.1) / 2,
     (b.bmin.2.2 + b.bmax.2.2) / 2)

/-- Concrete input for claim C1: two valid vertices-triangle rows plus one
face `(0, 1, 5)` whose index 5 is out of range for the 3 vertices. -/
def c1Verts : List (Vec3 ℚ) := [(0, 0, 0), (1, 0, 0), (0, 1, 0)]

/-- Face list for claim C1: the corrupt face first, then a valid unit right
triangle of area `1/2`. -/
def c1Faces : List Face := [(0, 1, 5), (0, 1, 2)]

/-- Concrete input for claim C2: the standard simplex corner points. -/
def c2Verts : List (Vec3 ℚ) := [(1, 0, 0), (0, 1, 0), (0, 0, 1)]

/-- Face list for claim C2: the same triangle with both windings, so the two
signed tetrahedron volumes `1/6` and `-1/6` cancel in the signed total. -/
def c2Faces : List Face := [(0, 1, 2), (0, 2, 1)]

/-- Concrete input for claim C4: two vertices at distance `1/2`, far beyond
the default tolerance `1e-6`, but within `np.allclose`'s default relative
tolerance `1e-5 * 100000`. -/
def c4Verts : List (Vec3 ℚ) := [(100000, 0, 0), (200001 / 2, 0, 0)]

/-- Concrete input for claim C7: vertices spanning one triangle whose
cross-product norm is `1.5e-10` (area `7.5e-11`) and one of area `1/2`. -/
def c7Verts : List (Vec3 ℚ) := [(0, 0, 0), (1, 0, 0), (0, 3 / 20000000000, 0), (0, 1, 0)]

/-- Face list for claim C7: the near-degenerate triangle then the valid one. -/
def c7Faces : List Face := [(0, 1, 2), (0, 1, 3)]

/-- Vertices for the colinear-triangle example of claim C7. -/
def c7colVerts : List (Vec3 ℚ) := [(0, 0, 0), (1, 0, 0), (2, 0, 0), (0, 1, 0)]

/-- Faces for the colinear-triangle example: one zero-area triangle from
three colinear points, then two valid triangles. -/
def c7colFaces : List Face := [(0, 1, 2), (0, 1, 3), (1, 2, 3)]

/-! Helper lemmas about the running minimum and maximum. -/

theorem foldMin_le (x : α) (xs : List α) : ∀ a ∈ x :: xs, foldMin x xs ≤ a := by
  induction xs generalizing x with
  | nil =>
    intro a ha
    simp only [List.mem_singleton] at ha
    simp [foldMin, ha]
  | cons y ys ih =>
    intro a ha
    have hfold : foldMin x (y :: ys) = foldMin (min x y) ys := rfl
    rw [hfold]
    rcases List.mem_cons.mp ha with rfl | h2
    · exact le_trans (ih (min a y) _ (List.mem_cons_self _ _)) (min_le_left _ _)
    · rcases List.mem_cons.mp h2 with rfl | h4
      · exact le_trans (ih (min x a) _ (List.mem_cons_self _ _)) (min_le_right _ _)
      · exact ih (min x y) a (List.mem_cons_of_mem _ h4)

theorem foldMin_mem (x : α) (xs : List α) : foldMin x xs ∈ x :: xs := by
  induction xs generalizing x with
  | nil => simp [foldMin]
  | cons y ys ih =>
    have hfold : foldMin x (y :: ys) = foldMin (min x y) ys := rfl
    rw [hfold]
    rcases List.mem_cons.mp (ih (min x y)) with h1 | h2
    · rcases min_choice x y with hc | hc
      · rw [h1, hc]; exact List.mem_cons_self _ _
      · rw [h1, hc]; exact List.mem_cons_of_mem _ (List.mem_cons_self _ _)
    · exact List.mem_cons_of_mem _ (List.mem_cons_of_mem _ h2)

theorem le_foldMax (x : α) (xs : List α) : ∀ a ∈ x :: xs, a ≤ foldMax x xs := by
  induction xs generalizing x with
  | nil =>
    intro a ha
    simp only [List.mem_singleton] at ha
    simp [foldMax, ha]
  | cons y ys ih =>
    intro a ha
    have hfold : foldMax x (y :: ys) = foldMax (max x y) ys := rfl
    rw [hfold]
    rcases List.mem_cons.mp ha with rfl | h2
    · exact le_trans (le_max_left a y) (ih (max a y) _ (List.mem_cons_self _ _))
    · rcases List.mem_cons.mp h2 with rfl | h4
      · exact le_trans (le_max_right x a) (ih (max x a) _ (List.mem_cons_self _ _))
      · exact ih (max x y) a (List.mem_cons_of_mem _ h4)

theorem foldMax_mem (x : α) (xs : List α) : foldMax x xs ∈ x :: xs := by
  induction xs generalizing x with
  | nil => simp [foldMax]
  | cons y ys ih =>
    have hfold : foldMax x (y :: ys) = foldMax (max x y) ys := rfl
    rw [hfold]
    rcases List.mem_cons.mp (ih (max x y)) with h1 | h2
    · rcases max_choice x y with hc | hc
      · rw [h1, hc]; exact List.mem_cons_self _ _
      · rw [h1, hc]; exact List.mem_cons_of_mem _ (List.mem_cons_self _ _)
    · exact List.mem_cons_of_mem _ (List.mem_cons_of_mem _ h2)

theorem foldMin_le_comp (v : Vec3 α) (rest : List (Vec3 α)) (g : Vec3 α → α) :
    ∀ u ∈ v :: rest, foldMin (g v) (rest.map g) ≤ g u := by
  intro u hu
  refine foldMin_le (g v) (rest.map g) (g u) ?_
  rcases List.mem_cons.mp hu with h | h
  · exact h ▸ List.mem_cons_self _ _
  · exact List.mem_cons_of_mem _ (List.mem_map_of_mem g h)

theorem foldMin_attained (v : Vec3 α) (rest : List (Vec3 α)) (g : Vec3 α → α) :
    ∃ u ∈ v :: rest, g u = foldMin (g v) (rest.map g) := by
  have h2 : foldMin (g v) (rest.map g) ∈ (v :: rest).map g := foldMin_mem (g v) (rest.map g)
  rcases List.mem_map.mp h2 with ⟨u, hu, he⟩
  exact ⟨u, hu, he⟩

theorem le_foldMax_comp (v : Vec3 α) (rest : List (Vec3 α)) (g : Vec3 α → α) :
    ∀ u ∈ v :: rest, g u ≤ foldMax (g v) (rest.map g) := by
  intro u hu
  refine le_foldMax (g v) (rest.map g) (g u) ?_
  rcases List.mem_cons.mp hu with h | h
  · exact h ▸ List.mem_cons_self _ _
  · exact List.mem_cons_of_mem _ (List.mem_map_of_mem g h)

theorem foldMax_attained (v : Vec3 α) (rest : List (Vec3 α)) (g : Vec3 α → α) :
    ∃ u ∈ v :: rest, g u = foldMax (g v) (rest.map g) := by
  have h2 : foldMax (g v) (rest.map g) ∈ (v :: rest).map g := foldMax_mem (g v) (rest.map g)
  rcases List.mem_map.mp h2 with ⟨u, hu, he⟩
  exact ⟨u, hu, he⟩

/-- C5: on the input pair of shapes (0,3)/(0,3), `validate_mesh` reports
`is_valid = false` with exactly the errors "No vertices found" and
"No faces found", in that order, and no shape or index errors. -/
theorem c5_validate_empty_mesh (ops : NumOps α) :
    (validateMesh ops ([] : List (Vec3 α)) ([] : List Face)).errors =
      ["No vertices found", "No faces found"] ∧
    (validateMesh ops ([] : List (Vec3 α)) ([] : List Face)).is_valid = false :=
  ⟨rfl, rfl⟩

/-- C10: for every input pair of shapes (N,3)/(M,3), the report's stats are
computed unconditionally — vertex and face counts, bounding box, surface area
and volume are present and equal to the estimator results whether or not the
structural checks succeeded. -/
theorem c10_stats_unconditional (ops : NumOps α) (vs : List (Vec3 α)) (fs : List Face) :
    (validateMesh ops vs fs).stats.vertex_count = vs.length ∧
    (validateMesh ops vs fs).stats.face_count = fs.length ∧
    (validateMesh ops vs fs).stats.bounding_box = calcBoundingBox vs ∧
    (validateMesh ops vs fs).stats.surface_area = estimateSurfaceArea ops vs fs ∧
    (validateMesh ops vs fs).stats.volume = estimateVolume vs fs :=
  ⟨rfl, rfl, rfl, rfl, rfl⟩

/-- C6 (counterexample): on the empty vertex array the bounding-box
dictionary of `_calculate_bounding_box` has no `center` key at all, so the
claim that the empty box has `center` zero fails. -/
theorem c6_counterexample :
    (calcBoundingBox ([] : List (Vec3 ℚ))).bcenter = none ∧
    (calcBoundingBox ([] : List (Vec3 ℚ))).bcenter ≠ some ((0 : ℚ), 0, 0) :=
  ⟨rfl, fun h => Option.noConfusion h⟩

/-- C6 (amended): for non-empty input the bounding box is the componentwise
minimum and maximum over all vertices with `size = max - min` and
`center = (min + max) / 2`; for empty input `min`, `max` and `size` are zero
and the `center` key is absent. -/
theorem c6_bounding_box (vs : List (Vec3 α)) :
    (vs = [] → calcBoundingBox vs =
      ⟨(0, 0, 0), (0, 0, 0), (0, 0, 0), none⟩) ∧
    (vs ≠ [] → IsBBoxOf vs (calcBoundingBox vs)) := by
  constructor
  · intro h; subst h; rfl
  · intro h
    match vs with
    | [] => exact absurd rfl h
    | v :: rest =>
      exact ⟨fun u hu =>
          ⟨foldMin_le_comp v rest (fun w => w.1) u hu,
           foldMin_le_comp v rest (fun w => w.2.1) u hu,
           foldMin_le_comp v rest (fun w => w.2.2) u hu,
           le_foldMax_comp v rest (fun w => w.1) u hu,
           le_foldMax_comp v rest (fun w => w.2.1) u hu,
           le_foldMax_comp v rest (fun w => w.2.2) u hu⟩,
        foldMin_attained v rest (fun w => w.1),
        foldMin_attained v rest (fun w => w.2.1),
        foldMin_attained v rest (fun w => w.2.2),
        foldMax_attained v rest (fun w => w.1),
        foldMax_attained v rest (fun w => w.2.1),
        foldMax_attained v rest (fun w => w.2.2),
        rfl, rfl⟩

/-- Witness for C6 at a concrete two-vertex input. -/
theorem c6_bounding_box_witness :
    ([((1 : ℚ), 2, 3), (4, 0, 6)] : List (Vec3 ℚ)) ≠ [] ∧
    IsBBoxOf [((1 : ℚ), 2, 3), (4, 0, 6)]
      (calcBoundingBox [((1 : ℚ), 2, 3), (4, 0, 6)]) :=
  ⟨fun h => List.noConfusion h,
   (c6_bounding_box [((1 : ℚ), 2, 3), (4, 0, 6)]).2 (fun h => List.noConfusion h)⟩

/-! Helper lemmas about the estimator loops. -/

theorem estimateSurfaceAreaGo_abort (ops : NumOps α) (vs : List (Vec3 α)) :
    ∀ (fs : List Face) (acc : α), (∃ f ∈ fs, faceTriple vs f = none) →
      estimateSurfaceAreaGo ops vs acc fs = 0 := by
  intro fs
  induction fs with
  | nil => intro acc h; simp at h
  | cons f rest ih =>
    intro acc h
    cases hft : faceTriple vs f with
    | none => simp [estimateSurfaceAreaGo, hft]
    | some t =>
      obtain ⟨a, b, c⟩ := t
      have hrest : ∃ g ∈ rest, faceTriple vs g = none := by
        obtain ⟨g, hg, hgn⟩ := h
        rcases List.mem_cons.mp hg with rfl | hmem
        · exact absurd hgn (by simp [hft])
        · exact ⟨g, hmem, hgn⟩
      simp [estimateSurfaceAreaGo, hft, ih _ hrest]

theorem estimateSurfaceAreaGo_ok (ops : NumOps α) (vs : List (Vec3 α)) :
    ∀ (fs : List Face) (acc : α), (∀ f ∈ fs, faceTriple vs f ≠ none) →
      estimateSurfaceAreaGo ops vs acc fs = acc + (fs.map (areaTerm ops vs)).sum := by
  intro fs
  induction fs with
  | nil => intro acc _; simp [estimateSurfaceAreaGo]
  | cons f rest ih =>
    intro acc h
    cases hft : faceTriple vs f with
    | none => exact absurd hft (h f (List.mem_cons_self _ _))
    | some t =>
      obtain ⟨a, b, c⟩ := t
      have := ih (acc + triArea ops a b c) (fun g hg => h g (List.mem_cons_of_mem _ hg))
      simp [estimateSurfaceAreaGo, hft, this, areaTerm]
      ring

theorem estimateVolumeGo_abort (vs : List (Vec3 α)) :
    ∀ (fs : List Face) (acc : α), (∃ f ∈ fs, faceTriple vs f = none) →
      estimateVolumeGo vs acc fs = none := by
  intro fs
  induction fs with
  | nil => intro acc h; simp at h
  | cons f rest ih =>
    intro acc h
    cases hft : faceTriple vs f with
    | none => simp [estimateVolumeGo, hft]
    | some t =>
      obtain ⟨a, b, c⟩ := t
      have hrest : ∃ g ∈ rest, faceTriple vs g = none := by
        obtain ⟨g, hg, hgn⟩ := h
        rcases List.mem_cons.mp hg with rfl | hmem
        · exact absurd hgn (by simp [hft])
        · exact ⟨g, hmem, hgn⟩
      simp [estimateVolumeGo, hft, ih _ hrest]

theorem estimateVolumeGo_ok (vs : List (Vec3 α)) :
    ∀ (fs : List Face) (acc : α), (∀ f ∈ fs, faceTriple vs f ≠ none) →
      estimateVolumeGo vs acc fs = some (acc + (fs.map (signedTerm vs)).sum) := by
  intro fs
  induction fs with
  | nil => intro acc _; simp [estimateVolumeGo]
  | cons f rest ih =>
    intro acc h
    cases hft : faceTriple vs f with
    | none => exact absurd hft (h f (List.mem_cons_self _ _))
    | some t =>
      obtain ⟨a, b, c⟩ := t
      have := ih (acc + tetVol a b c) (fun g hg => h g (List.mem_cons_of_mem _ hg))
      simp [estimateVolumeGo, hft, this, signedTerm]
      ring

theorem baseEstimateVolumeGo_ok (vs : List (Vec3 α)) :
    ∀ (fs : List Face) (acc : α), (∀ f ∈ fs, faceTriple vs f ≠ none) →
      baseEstimateVolumeGo vs acc fs = some (acc + (fs.map (absTerm vs)).sum) := by
  intro fs
  induction fs with
  | nil => intro acc _; simp [baseEstimateVolumeGo]
  | cons f rest ih =>
    intro acc h
    cases hft : faceTriple vs f with
    | none => exact absurd hft (h f (List.mem_cons_self _ _))
    | some t =>
      obtain ⟨a, b, c⟩ := t
      have := ih (acc + |dot a (cross b c)| / 6) (fun g hg => h g (List.mem_cons_of_mem _ hg))
      simp [baseEstimateVolumeGo, hft, this, absTerm]
      ring

/-- C1 (counterexample): with the corrupt face `(0,1,5)` first and a valid
triangle of area `1/2` second, `_estimate_surface_area` returns `0`, not the
partial sum `1/2` over valid faces that the claim describes. -/
theorem c1_counterexample :
    estimateSurfaceArea ratOps c1Verts c1Faces = 0 ∧
    specSurfaceArea ratOps c1Verts c1Faces = 1 / 2 ∧
    estimateSurfaceArea ratOps c1Verts c1Faces ≠ specSurfaceArea ratOps c1Verts c1Faces := by
  have h1 : estimateSurfaceArea ratOps c1Verts c1Faces = 0 := by with_unfolding_all rfl
  have h2 : specSurfaceArea ratOps c1Verts c1Faces = 1 / 2 := by with_unfolding_all rfl
  refine ⟨h1, h2, ?_⟩
  rw [h1, h2]
  norm_num

/-- C1 (amended): if any face has an unindexable (out-of-range) vertex index
the whole computation aborts and `_estimate_surface_area` returns `0.0`,
discarding the partial sum; only when every face is indexable does it return
the sum of the per-triangle areas. -/
theorem c1_surface_area_abort (ops : NumOps α) (vs : List (Vec3 α)) (fs : List Face) :
    ((∃ f ∈ fs, faceTriple vs f = none) → estimateSurfaceArea ops vs fs = 0) ∧
    ((∀ f ∈ fs, faceTriple vs f ≠ none) →
      estimateSurfaceArea ops vs fs = (fs.map (areaTerm ops vs)).sum) := by
  constructor
  · intro h
    exact estimateSurfaceAreaGo_abort ops vs fs 0 h
  · intro h
    have := estimateSurfaceAreaGo_ok ops vs fs 0 h
    simpa [estimateSurfaceArea] using this

/-- Witness for C1 at concrete inputs: the corrupt mesh aborts to `0`, and
the valid single-face mesh returns the full area sum. -/
theorem c1_surface_area_abort_witness :
    estimateSurfaceArea ratOps c1Verts c1Faces = 0 ∧
    estimateSurfaceArea ratOps c1Verts [(0, 1, 2)] =
      ([((0 : Int), 1, 2)].map (areaTerm ratOps c1Verts)).sum := by
  constructor
  · exact (c1_surface_area_abort ratOps c1Verts c1Faces).1
      ⟨(0, 1, 5), List.mem_cons_self _ _, by with_unfolding_all rfl⟩
  · refine (c1_surface_area_abort ratOps c1Verts [(0, 1, 2)]).2 ?_
    intro f hf
    rcases List.mem_singleton.mp hf with rfl
    have hft : faceTriple c1Verts ((0 : Int), 1, 2) =
        some ((0, 0, 0), (1, 0, 0), (0, 1, 0)) := by with_unfolding_all rfl
    simp [hft]

/-- C2 (counterexample): on a mesh whose two faces have opposite winding,
`MeshProcessor._estimate_volume` (absolute value once, at the end) returns
`0` while `BaseText3DModel._estimate_volume` (absolute value per face)
returns `1/3`: the two implementations do not compute the same value. -/
theorem c2_counterexample :
    estimateVolume c2Verts c2Faces = 0 ∧
    baseEstimateVolume c2Verts c2Faces = 1 / 3 ∧
    baseEstimateVolume c2Verts c2Faces ≠ estimateVolume c2Verts c2Faces := by
  have h1 : estimateVolume c2Verts c2Faces = 0 := by with_unfolding_all rfl
  have h2 : baseEstimateVolume c2Verts c2Faces = 1 / 3 := by with_unfolding_all rfl
  refine ⟨h1, h2, ?_⟩
  rw [h1, h2]
  norm_num

/-- C2 (amended): for in-range faces, `MeshProcessor._estimate_volume` is the
absolute value of the signed tetrahedron-volume total (absolute value applied
once at the end), while `BaseText3DModel._estimate_volume` — the value used
for the metadata `volume_estimate` — is the sum of per-face absolute values;
the two agree only when no cancellation occurs. -/
theorem c2_volume_abs_placement (vs : List (Vec3 α)) (fs : List Face)
    (h : ∀ f ∈ fs, faceTriple vs f ≠ none) :
    estimateVolume vs fs = |specSignedVolumeSum vs fs| ∧
    baseEstimateVolume vs fs = specAbsVolumeSum vs fs := by
  constructor
  · have hg := estimateVolumeGo_ok vs fs 0 h
    unfold estimateVolume
    rw [hg]
    simp [specSignedVolumeSum]
  · have hg := baseEstimateVolumeGo_ok vs fs 0 h
    unfold baseEstimateVolume
    rw [hg]
    simp [specAbsVolumeSum]

/-- Witness for C2 at the opposite-winding mesh. -/
theorem c2_volume_abs_placement_witness :
    estimateVolume c2Verts c2Faces = |specSignedVolumeSum c2Verts c2Faces| ∧
    baseEstimateVolume c2Verts c2Faces = specAbsVolumeSum c2Verts c2Faces := by
  refine c2_volume_abs_placement c2Verts c2Faces ?_
  intro f hf
  have hf1 : faceTriple c2Verts ((0 : Int), 1, 2) =
      some ((1, 0, 0), (0, 1, 0), (0, 0, 1)) := by with_unfolding_all rfl
  have hf2 : faceTriple c2Verts ((0 : Int), 2, 1) =
      some ((1, 0, 0), (0, 0, 1), (0, 1, 0)) := by with_unfolding_all rfl
  rcases List.mem_cons.mp hf with rfl | hf'
  · simp [hf1]
  · rcases List.mem_singleton.mp hf' with rfl
    simp [hf2]

theorem degGo_eq_filter (ops : NumOps α) (vs : List (Vec3 α)) :
    ∀ fs : List Face, degGo ops vs fs = fs.filter (keepFaceB ops vs) := by
  intro fs
  induction fs with
  | nil => rfl
  | cons f rest ih =>
    cases h : keepFaceB ops vs f with
    | true => simp [degGo, h, List.filter_cons, ih]
    | false => simp [degGo, h, List.filter_cons, ih]

/-- C7 (counterexample): the face `(0,1,2)` of `c7Verts` has triangle area
`7.5e-11 ≤ 1e-10`, so the claim says it is dropped as degenerate; the source
compares the raw cross-product norm (`1.5e-10 > 1e-10`) and keeps it. -/
theorem c7_counterexample :
    removeDegenerateFaces ratOps c7Verts c7Faces = [(0, 1, 2), (0, 1, 3)] ∧
    triArea ratOps (0, 0, 0) (1, 0, 0) (0, 3 / 20000000000, 0) = 3 / 40000000000 ∧
    (3 / 40000000000 : ℚ) ≤ 1 / 10000000000 ∧
    specRemoveDegenerateFaces ratOps c7Verts c7Faces = [(0, 1, 3)] := by
  refine ⟨by with_unfolding_all rfl, by with_unfolding_all rfl, by norm_num,
    by with_unfolding_all rfl⟩

/-- C7 (amended): `_remove_degenerate_faces` keeps, in order, exactly the
faces with three pairwise-distinct indexable indices whose cross-product norm
exceeds `1e-10` (triangle area above `5e-11`), and returns the original face
array when every face is dropped; in particular, on the mesh with one
zero-area colinear triangle and two valid triangles it returns exactly the
two valid triangles. -/
theorem c7_remove_degenerate :
    (∀ (β : Type) [LinearOrderedField β] (ops : NumOps β)
        (vs : List (Vec3 β)) (fs : List Face),
        removeDegenerateFaces ops vs fs =
          if fs.filter (keepFaceB ops vs) = [] then fs
          else fs.filter (keepFaceB ops vs)) ∧
    removeDegenerateFaces ratOps c7colVerts c7colFaces = [(0, 1, 3), (1, 2, 3)] := by
  constructor
  · intro β _ ops vs fs
    unfold removeDegenerateFaces
    rw [degGo_eq_filter]
    cases hfil : fs.filter (keepFaceB ops vs) with
    | nil => simp
    | cons g rest => simp
  · with_unfolding_all rfl

set_option maxRecDepth 4000

theorem sphereVertices_length (ops : NumOps α) (size : α) :
    (sphereVertices ops size).length = 561 := by
  with_unfolding_all rfl

theorem cylinderVertices_length (ops : NumOps α) (size : α) :
    (cylinderVertices ops size).length = 34 := by
  with_unfolding_all rfl

theorem sphereFaces_bounds : ∀ f ∈ sphereFaces, faceInRange 561 f := by
  have hb : sphereFaces.all (fun f => decide (faceInRange 561 f)) = true := by
    with_unfolding_all rfl
  intro f hf
  exact of_decide_eq_true (List.all_eq_true.mp hb f hf)

theorem cylinderFaces_bounds : ∀ f ∈ cylinderFaces, faceInRange 34 f := by
  have hb : cylinderFaces.all (fun f => decide (faceInRange 34 f)) = true := by
    with_unfolding_all rfl
  intro f hf
  exact of_decide_eq_true (List.all_eq_true.mp hb f hf)

/-- C9: for every size, each primitive generator returns (N,3) vertices and
(M,3) faces with all face indices in `[0, N)`, with the fixed counts
cube 8/12, sphere 561/1024, cylinder 34/64, pyramid 5/6. -/
theorem c9_generators (ops : NumOps α) (size : α) :
    (createCube size).1.length = 8 ∧ (createCube size).2.length = 12 ∧
    (∀ f ∈ (createCube size).2, faceInRange 8 f) ∧
    (createSphere ops size).1.length = 561 ∧ (createSphere ops size).2.length = 1024 ∧
    (∀ f ∈ (createSphere ops size).2, faceInRange 561 f) ∧
    (createCylinder ops size).1.length = 34 ∧ (createCylinder ops size).2.length = 64 ∧
    (∀ f ∈ (createCylinder ops size).2, faceInRange 34 f) ∧
    (createPyramid size).1.length = 5 ∧ (createPyramid size).2.length = 6 ∧
    (∀ f ∈ (createPyramid size).2, faceInRange 5 f) := by
  refine ⟨rfl, rfl, ?_, sphereVertices_length ops size, by with_unfolding_all rfl,
    sphereFaces_bounds, cylinderVertices_length ops size, by with_unfolding_all rfl,
    cylinderFaces_bounds, rfl, rfl, ?_⟩
  · show ∀ f ∈ ([(0, 1, 2), (0, 2, 3), (4, 7, 6), (4, 6, 5), (0, 4, 5), (0, 5, 1),
        (2, 6, 7), (2, 7, 3), (0, 3, 7), (0, 7, 4), (1, 5, 6), (1, 6, 2)] : List Face),
      faceInRange 8 f
    decide
  · show ∀ f ∈ ([(0, 1, 2), (0, 2, 3), (0, 4, 1), (1, 4, 2), (2, 4, 3), (3, 4, 0)] :
        List Face), faceInRange 5 f
    decide

/-! Helper lemmas about vertex welding. -/

theorem allcloseB_self (tol : α) (htol : 0 ≤ tol) (v : Vec3 α) :
    allcloseB tol v v = true := by
  have h : ∀ x : α, (0 : α) ≤ tol + 1 / 100000 * |x| :=
    fun x => add_nonneg htol (by positivity)
  simp only [allcloseB, sub_self, abs_zero, Bool.and_eq_true, decide_eq_true_eq]
  exact ⟨⟨h _, h _⟩, h _⟩

theorem findClose_some_lt (tol : α) (v : Vec3 α) :
    ∀ (us : List (Vec3 α)) (j : Nat), findClose tol v us = some j → j < us.length := by
  intro us
  induction us with
  | nil => intro j h; simp [findClose] at h
  | cons u us' ih =>
    intro j h
    cases hc : allcloseB tol v u with
    | true =>
      simp [findClose, hc] at h
      simp [← h]
    | false =>
      simp [findClose, hc] at h
      obtain ⟨k, hk, rfl⟩ := h
      have := ih k hk
      simp
      omega

theorem findClose_none_iff (tol : α) (v : Vec3 α) :
    ∀ us : List (Vec3 α),
      findClose tol v us = none ↔ ∀ u ∈ us, allcloseB tol v u = false := by
  intro us
  induction us with
  | nil => simp [findClose]
  | cons u us' ih =>
    cases hc : allcloseB tol v u with
    | true => simp [findClose, hc]
    | false => simp [findClose, hc, ih]

theorem findClose_eq_findIdx (tol : α) (v : Vec3 α) :
    ∀ (us : List (Vec3 α)) (j : Nat), findClose tol v us = some j →
      List.findIdx (fun u => allcloseB tol v u) us = j := by
  intro us
  induction us with
  | nil => intro j h; simp [findClose] at h
  | cons u us' ih =>
    intro j h
    cases hc : allcloseB tol v u with
    | true =>
      simp [findClose, hc] at h
      simp [List.findIdx_cons, hc, h]
    | false =>
      simp [findClose, hc] at h
      obtain ⟨k, hk, rfl⟩ := h
      simp [List.findIdx_cons, hc, ih k hk]

omit [LinearOrderedField α] in
theorem findIdx_append_of_lt (p : Vec3 α → Bool) :
    ∀ (us ext : List (Vec3 α)), List.findIdx p us < us.length →
      List.findIdx p (us ++ ext) = List.findIdx p us := by
  intro us
  induction us with
  | nil => intro ext h; simp at h
  | cons u us' ih =>
    intro ext h
    cases hp : p u with
    | true => simp [List.findIdx_cons, hp]
    | false =>
      rw [List.findIdx_cons, hp] at h
      simp only [cond_false, List.length_cons] at h
      have h2 : List.findIdx p us' < us'.length := by omega
      rw [List.cons_append, List.findIdx_cons, hp, List.findIdx_cons, hp]
      simp only [cond_false]
      rw [ih ext h2]

omit [LinearOrderedField α] in
theorem findIdx_extend (p : Vec3 α → Bool) :
    ∀ (us rest : List (Vec3 α)), (∀ u ∈ us, p u = false) →
      List.findIdx p (us ++ rest) = us.length + List.findIdx p rest := by
  intro us
  induction us with
  | nil => intro rest _; simp
  | cons u us' ih =>
    intro rest h
    have hp : p u = false := h u (List.mem_cons_self _ _)
    have := ih rest (fun w hw => h w (List.mem_cons_of_mem _ hw))
    simp [List.findIdx_cons, hp, this]
    omega

theorem weldGo_fst_spec (tol : α) :
    ∀ (l uniq : List (Vec3 α)),
      ∃ ext, (weldGo tol uniq l).1 = uniq ++ ext ∧ ext.Sublist l := by
  intro l
  induction l with
  | nil => intro uniq; exact ⟨[], by simp [weldGo], List.nil_sublist _⟩
  | cons v rest ih =>
    intro uniq
    cases hfc : findClose tol v uniq with
    | some j =>
      obtain ⟨ext, he, hs⟩ := ih uniq
      exact ⟨ext, by simp [weldGo, hfc, he], hs.cons _⟩
    | none =>
      obtain ⟨ext, he, hs⟩ := ih (uniq ++ [v])
      refine ⟨v :: ext, ?_, hs.cons₂ v⟩
      simp [weldGo, hfc, he]

theorem weldGo_snd_length (tol : α) :
    ∀ (l uniq : List (Vec3 α)), (weldGo tol uniq l).2.length = l.length := by
  intro l
  induction l with
  | nil => intro uniq; simp [weldGo]
  | cons v rest ih =>
    intro uniq
    cases hfc : findClose tol v uniq with
    | some j => simp [weldGo, hfc, ih uniq]
    | none => simp [weldGo, hfc, ih (uniq ++ [v])]

theorem weldGo_snd_lt (tol : α) :
    ∀ (l uniq : List (Vec3 α)),
      ∀ m ∈ (weldGo tol uniq l).2, m < (weldGo tol uniq l).1.length := by
  intro l
  induction l with
  | nil => intro uniq m hm; simp [weldGo] at hm
  | cons v rest ih =>
    intro uniq m hm
    cases hfc : findClose tol v uniq with
    | some j =>
      simp only [weldGo, hfc] at hm ⊢
      rcases List.mem_cons.mp hm with rfl | hmem
      · obtain ⟨ext, he, _⟩ := weldGo_fst_spec tol rest uniq
        have hj := findClose_some_lt tol v uniq m hfc
        rw [he, List.length_append]
        omega
      · exact ih uniq m hmem
    | none =>
      simp only [weldGo, hfc] at hm ⊢
      rcases List.mem_cons.mp hm with rfl | hmem
      · obtain ⟨ext, he, _⟩ := weldGo_fst_spec tol rest (uniq ++ [v])
        rw [he, List.length_append, List.length_append]
        simp only [List.length_singleton]
        omega
      · exact ih (uniq ++ [v]) m hmem

theorem weldGo_snd_findIdx (tol : α) (htol : 0 ≤ tol) :
    ∀ (l uniq : List (Vec3 α)) (k : Nat), k < l.length →
      (weldGo tol uniq l).2.getD k 0 =
        List.findIdx (fun u => allcloseB tol (l.getD k (0, 0, 0)) u)
          (weldGo tol uniq l).1 := by
  intro l
  induction l with
  | nil => intro uniq k hk; simp at hk
  | cons v rest ih =>
    intro uniq k hk
    cases hfc : findClose tol v uniq with
    | some j =>
      cases k with
      | zero =>
        simp only [weldGo, hfc, List.getD_cons_zero]
        obtain ⟨ext, he, _⟩ := weldGo_fst_spec tol rest uniq
        have hj := findClose_eq_findIdx tol v uniq j hfc
        have hlt : j < uniq.length := findClose_some_lt tol v uniq j hfc
        rw [he, findIdx_append_of_lt _ uniq ext (hj ▸ hlt), hj]
      | succ k' =>
        simp only [weldGo, hfc, List.getD_cons_succ]
        exact ih uniq k' (by simpa using hk)
    | none =>
      cases k with
      | zero =>
        simp only [weldGo, hfc, List.getD_cons_zero]
        obtain ⟨ext, he, _⟩ := weldGo_fst_spec tol rest (uniq ++ [v])
        have hnone := (findClose_none_iff tol v uniq).mp hfc
        rw [he, List.append_assoc, List.singleton_append,
          findIdx_extend _ uniq (v :: ext) hnone, List.findIdx_cons,
          allcloseB_self tol htol v]
        simp
      | succ k' =>
        simp only [weldGo, hfc, List.getD_cons_succ]
        exact ih (uniq ++ [v]) k' (by simpa using hk)

theorem weldGo_pairwise (tol : α) :
    ∀ (l uniq : List (Vec3 α)),
      List.Pairwise (fun a b => allcloseB tol b a = false) uniq →
      List.Pairwise (fun a b => allcloseB tol b a = false) (weldGo tol uniq l).1 := by
  intro l
  induction l with
  | nil => intro uniq h; simpa [weldGo] using h
  | cons v rest ih =>
    intro uniq h
    cases hfc : findClose tol v uniq with
    | some j => simp only [weldGo, hfc]; exact ih uniq h
    | none =>
      simp only [weldGo, hfc]
      refine ih (uniq ++ [v]) ?_
      rw [List.pairwise_append]
      refine ⟨h, List.pairwise_singleton _ _, ?_⟩
      intro a ha b hb
      rcases List.mem_singleton.mp hb with rfl
      exact (findClose_none_iff tol b uniq).mp hfc a ha

theorem weldGo_stable (tol : α) :
    ∀ (l pre : List (Vec3 α)),
      List.Pairwise (fun a b => allcloseB tol b a = false) (pre ++ l) →
      (weldGo tol pre l).1 = pre ++ l := by
  intro l
  induction l with
  | nil => intro pre _; simp [weldGo]
  | cons v rest ih =>
    intro pre h
    have hnone : findClose tol v pre = none := by
      refine (findClose_none_iff tol v pre).mpr ?_
      intro u hu
      have := (List.pairwise_append.mp h).2.2
      exact this u hu v (List.mem_cons_self _ _)
    simp only [weldGo, hnone]
    have h2 : List.Pairwise (fun a b => allcloseB tol b a = false) ((pre ++ [v]) ++ rest) := by
      rw [List.append_assoc, List.singleton_append]
      exact h
    rw [ih (pre ++ [v]) h2, List.append_assoc, List.singleton_append]

theorem weldGuard_iff (n : Int) (f : Face) :
    ((decide (0 ≤ f.1 ∧ f.1 < n) && decide (0 ≤ f.2.1 ∧ f.2.1 < n) &&
      decide (0 ≤ f.2.2 ∧ f.2.2 < n)) = true) ↔ faceInRange n f := by
  simp only [Bool.and_eq_true, decide_eq_true_eq, faceInRange]
  tauto

theorem removeDuplicateVertices_of_inRange (tol : α) (vs : List (Vec3 α))
    (fs : List Face) (hfs : ∀ f ∈ fs, faceInRange (vs.length : Int) f) :
    removeDuplicateVertices tol vs fs =
      ((weldGo tol [] vs).1, fs.map (fun f =>
        (((weldGo tol [] vs).2.getD f.1.toNat 0 : Int),
         ((weldGo tol [] vs).2.getD f.2.1.toNat 0 : Int),
         ((weldGo tol [] vs).2.getD f.2.2.toNat 0 : Int)))) := by
  have hg : (fs.all (fun f =>
      decide (0 ≤ f.1 ∧ f.1 < (vs.length : Int)) &&
      decide (0 ≤ f.2.1 ∧ f.2.1 < (vs.length : Int)) &&
      decide (0 ≤ f.2.2 ∧ f.2.2 < (vs.length : Int)))) = true :=
    List.all_eq_true.mpr (fun f hf => (weldGuard_iff _ f).mpr (hfs f hf))
  simp only [removeDuplicateVertices, hg, if_true]

theorem removeDuplicateVertices_of_outRange (tol : α) (vs : List (Vec3 α))
    (fs : List Face) (hfs : ¬ ∀ f ∈ fs, faceInRange (vs.length : Int) f) :
    removeDuplicateVertices tol vs fs = (vs, fs) := by
  have hne : ¬ ((fs.all (fun f =>
      decide (0 ≤ f.1 ∧ f.1 < (vs.length : Int)) &&
      decide (0 ≤ f.2.1 ∧ f.2.1 < (vs.length : Int)) &&
      decide (0 ≤ f.2.2 ∧ f.2.2 < (vs.length : Int)))) = true) :=
    fun hc => hfs (fun f hf => (weldGuard_iff _ f).mp (List.all_eq_true.mp hc f hf))
  have hfalse : (fs.all (fun f =>
      decide (0 ≤ f.1 ∧ f.1 < (vs.length : Int)) &&
      decide (0 ≤ f.2.1 ∧ f.2.1 < (vs.length : Int)) &&
      decide (0 ≤ f.2.2 ∧ f.2.2 < (vs.length : Int)))) = false := by
    cases hx : (fs.all (fun f =>
        decide (0 ≤ f.1 ∧ f.1 < (vs.length : Int)) &&
        decide (0 ≤ f.2.1 ∧ f.2.1 < (vs.length : Int)) &&
        decide (0 ≤ f.2.2 ∧ f.2.2 < (vs.length : Int)))) with
    | true => exact absurd hx hne
    | false => rfl
  simp only [removeDuplicateVertices, hfalse, Bool.false_eq_true, if_false]

theorem weldMapping_getD_mem (tol : α) (vs : List (Vec3 α)) (k : Nat)
    (hk : k < vs.length) :
    (weldGo tol [] vs).2.getD k 0 ∈ (weldGo tol [] vs).2 := by
  have hlen : k < (weldGo tol [] vs).2.length := by
    rw [weldGo_snd_length]; exact hk
  rw [List.getD_eq_getElem _ _ hlen]
  exact List.getElem_mem hlen

/-- C4 (counterexample): with the default tolerance `1e-6`, two vertices at
distance `1/2` are nonetheless merged, because `np.allclose` keeps its
default relative tolerance `1e-5`, so the merge criterion is not
"distance ≤ tolerance". -/
theorem c4_counterexample :
    (removeDuplicateVertices (1 / 1000000 : ℚ) c4Verts []).1.length = 1 ∧
    ¬ (|(200001 / 2 : ℚ) - 100000| ≤ 1 / 1000000) := by
  constructor
  · with_unfolding_all rfl
  · rw [show (200001 / 2 : ℚ) - 100000 = 1 / 2 by norm_num,
      abs_of_nonneg (by norm_num : (0 : ℚ) ≤ 1 / 2)]
    norm_num

/-- C4 (amended): `_remove_duplicate_vertices` keeps, as a subsequence of the
input, the vertices not `np.allclose`-close (componentwise
`|a - b| ≤ tolerance + 1e-5 * |b|`) to any earlier kept vertex; the mapping
sends vertex `k` to the index of the first kept vertex close to it (a kept
vertex maps to itself), and when all face indices are in range each face row
is remapped entrywise through that mapping. -/
theorem c4_weld_allclose (tol : α) (vs : List (Vec3 α)) (fs : List Face)
    (htol : 0 ≤ tol) (hfs : ∀ f ∈ fs, faceInRange (vs.length : Int) f) :
    (removeDuplicateVertices tol vs fs).1.Sublist vs ∧
    (weldGo tol [] vs).2.length = vs.length ∧
    (∀ k, k < vs.length →
      (weldGo tol [] vs).2.getD k 0 =
        List.findIdx (fun u => allcloseB tol (vs.getD k (0, 0, 0)) u)
          (removeDuplicateVertices tol vs fs).1 ∧
      (weldGo tol [] vs).2.getD k 0 < (removeDuplicateVertices tol vs fs).1.length) ∧
    (removeDuplicateVertices tol vs fs).2 = fs.map (fun f =>
      (((weldGo tol [] vs).2.getD f.1.toNat 0 : Int),
       ((weldGo tol [] vs).2.getD f.2.1.toNat 0 : Int),
       ((weldGo tol [] vs).2.getD f.2.2.toNat 0 : Int))) := by
  have hrw := removeDuplicateVertices_of_inRange tol vs fs hfs
  rw [hrw]
  refine ⟨?_, weldGo_snd_length tol vs [], ?_, rfl⟩
  · obtain ⟨ext, he, hs⟩ := weldGo_fst_spec tol vs []
    simpa [he] using hs
  · intro k hk
    exact ⟨weldGo_snd_findIdx tol htol vs [] k hk,
      weldGo_snd_lt tol vs [] _ (weldMapping_getD_mem tol vs k hk)⟩

/-- Witness for C4 at a concrete mesh with one duplicate vertex. -/
theorem c4_weld_allclose_witness :
    (removeDuplicateVertices (1 / 1000000 : ℚ)
      [((0 : ℚ), 0, 0), (0, 0, 0), (1, 1, 1)] [(0, 1, 2)]).1.Sublist
      [((0 : ℚ), 0, 0), (0, 0, 0), (1, 1, 1)] :=
  (c4_weld_allclose (1 / 1000000 : ℚ) [((0 : ℚ), 0, 0), (0, 0, 0), (1, 1, 1)]
    [(0, 1, 2)] (by norm_num) (by decide)).1

/-- C8: applying `_remove_duplicate_vertices` twice with the same tolerance
leaves the vertex count of the first application unchanged: the second pass
merges no further vertices. -/
theorem c8_weld_idempotent (tol : α) (vs : List (Vec3 α)) (fs : List Face) :
    (removeDuplicateVertices tol (removeDuplicateVertices tol vs fs).1
      (removeDuplicateVertices tol vs fs).2).1.length =
    (removeDuplicateVertices tol vs fs).1.length := by
  by_cases hg : ∀ f ∈ fs, faceInRange (vs.length : Int) f
  · rw [removeDuplicateVertices_of_inRange tol vs fs hg]
    have hpair := weldGo_pairwise tol vs [] List.Pairwise.nil
    have hcomp : ∀ i : Int, 0 ≤ i → i < (vs.length : Int) →
        0 ≤ ((weldGo tol [] vs).2.getD i.toNat 0 : Int) ∧
        ((weldGo tol [] vs).2.getD i.toNat 0 : Int) <
          ((weldGo tol [] vs).1.length : Int) := by
      intro i h0 hlt
      refine ⟨Int.natCast_nonneg _, ?_⟩
      have hkl : i.toNat < vs.length := by omega
      have := weldGo_snd_lt tol vs [] _ (weldMapping_getD_mem tol vs i.toNat hkl)
      exact_mod_cast this
    have hg2 : ∀ g ∈ (fs.map (fun f =>
        (((weldGo tol [] vs).2.getD f.1.toNat 0 : Int),
         ((weldGo tol [] vs).2.getD f.2.1.toNat 0 : Int),
         ((weldGo tol [] vs).2.getD f.2.2.toNat 0 : Int)))),
        faceInRange ((weldGo tol [] vs).1.length : Int) g := by
      intro g hgm
      obtain ⟨f, hf, rfl⟩ := List.mem_map.mp hgm
      obtain ⟨⟨h11, h12⟩, ⟨h21, h22⟩, h31, h32⟩ := hg f hf
      exact ⟨hcomp f.1 h11 h12, hcomp f.2.1 h21 h22, hcomp f.2.2 h31 h32⟩
    rw [removeDuplicateVertices_of_inRange tol (weldGo tol [] vs).1 _ hg2]
    have hstable := weldGo_stable tol (weldGo tol [] vs).1 [] (by simpa using hpair)
    simp [hstable]
  · have hneg := removeDuplicateVertices_of_outRange tol vs fs hg
    rw [hneg]
    simp only []
    rw [hneg]

/-! Helper lemmas for the demo generation pipeline. -/

theorem sphereVertices_ne_nil (ops : NumOps α) (size : α) :
    sphereVertices ops size ≠ [] := by
  intro hc
  have hl := sphereVertices_length ops size
  rw [hc] at hl
  simp at hl

theorem sphereFaces_ne_nil : sphereFaces ≠ [] := by
  intro hc
  have hl : sphereFaces.length = 1024 := by with_unfolding_all rfl
  rw [hc] at hl
  simp at hl

theorem cylinderFaces_ne_nil : cylinderFaces ≠ [] := by
  intro hc
  have hl : cylinderFaces.length = 64 := by with_unfolding_all rfl
  rw [hc] at hl
  simp at hl

theorem postprocessGeometry_ok (vs : List (Vec3 α)) (fs : List Face)
    (hv : vs ≠ []) (hf : fs ≠ []) :
    ∃ r, postprocessGeometry vs fs = Except.ok r := by
  match vs, fs with
  | [], _ => exact absurd rfl hv
  | _ :: _, [] => exact absurd rfl hf
  | v :: rest, f :: frest => exact ⟨_, rfl⟩

theorem preprocessPrompt_ok (p : List Char)
    (h : ∀ w ∈ bannedWords, occursIn w.data (cleanPrompt p) = false) :
    preprocessPrompt p = Except.ok (cleanPrompt p) := by
  have hfind : bannedWords.find? (fun w => occursIn w.data (cleanPrompt p)) = none :=
    List.find?_eq_none.mpr (fun w hw => by simp [h w hw])
  simp [preprocessPrompt, hfind]

/-- C3 (counterexample): the prompt "explicit" matches no shape or size
keyword, yet demo generation raises `ValueError` from the banned-word check
in `preprocess_prompt` rather than falling back to the defaults. -/
theorem c3_counterexample :
    generate3d ratOps "explicit".data =
      Except.error "Inappropriate content detected: explicit" ∧
    (sphereWords ++ cylinderWords ++ pyramidWords ++ sizeSmallWords ++
      sizeLargeWords).all
      (fun w => !occursIn w.data (cleanPrompt "explicit".data)) = true := by
  constructor
  · with_unfolding_all rfl
  · with_unfolding_all rfl

/-- C3 (amended): demo generation succeeds for every prompt whose cleaned
form contains no banned word ("explicit", "inappropriate", "nsfw"); a prompt
matching no shape keyword falls back to shape "cube" and one matching no size
keyword falls back to size `1.0`. Only the banned-word check can make
generation fail on prompt content. -/
theorem c3_generate_succeeds (ops : NumOps α) (p : List Char)
    (h : ∀ w ∈ bannedWords, occursIn w.data (cleanPrompt p) = false) :
    (∃ r, generate3d ops p = Except.ok r ∧
      r.metadata.shape_type = extractShapeType (cleanPrompt p) ∧
      r.metadata.generation_method = "demo") ∧
    ((∀ w ∈ sphereWords ++ cylinderWords ++ pyramidWords,
        occursIn w.data (cleanPrompt p) = false) →
      extractShapeType (cleanPrompt p) = "cube") ∧
    ((∀ w ∈ sizeSmallWords ++ sizeLargeWords,
        occursIn w.data (cleanPrompt p) = false) →
      (extractSize (cleanPrompt p) : α) = 1) := by
  have hpre := preprocessPrompt_ok p h
  refine ⟨?_, ?_, ?_⟩
  · by_cases h1 : extractShapeType (cleanPrompt p) = "sphere"
    · obtain ⟨r, hr⟩ := postprocessGeometry_ok
        (createSphere ops (extractSize (cleanPrompt p))).1
        (createSphere ops (extractSize (cleanPrompt p))).2
        (sphereVertices_ne_nil ops _) sphereFaces_ne_nil
      refine ⟨{ r with metadata := { r.metadata with
        shape_type := extractShapeType (cleanPrompt p),
        generation_method := "demo" } }, ?_, rfl, rfl⟩
      simp [generate3d, hpre, h1, hr]
    · by_cases h2 : extractShapeType (cleanPrompt p) = "cylinder"
      · obtain ⟨r, hr⟩ := postprocessGeometry_ok
          (createCylinder ops (extractSize (cleanPrompt p))).1
          (createCylinder ops (extractSize (cleanPrompt p))).2
          (List.cons_ne_nil _ _) cylinderFaces_ne_nil
        refine ⟨{ r with metadata := { r.metadata with
          shape_type := extractShapeType (cleanPrompt p),
          generation_method := "demo" } }, ?_, rfl, rfl⟩
        simp [generate3d, hpre, h1, h2, hr]
      · by_cases h3 : extractShapeType (cleanPrompt p) = "pyramid"
        · obtain ⟨r, hr⟩ := postprocessGeometry_ok
            (createPyramid (α := α) (extractSize (cleanPrompt p))).1
            (createPyramid (α := α) (extractSize (cleanPrompt p))).2
            (List.cons_ne_nil _ _) (List.cons_ne_nil _ _)
          refine ⟨{ r with metadata := { r.metadata with
            shape_type := extractShapeType (cleanPrompt p),
            generation_method := "demo" } }, ?_, rfl, rfl⟩
          simp [generate3d, hpre, h1, h2, h3, hr]
        · obtain ⟨r, hr⟩ := postprocessGeometry_ok
            (createCube (α := α) (extractSize (cleanPrompt p))).1
            (createCube (α := α) (extractSize (cleanPrompt p))).2
            (List.cons_ne_nil _ _) (List.cons_ne_nil _ _)
          refine ⟨{ r with metadata := { r.metadata with
            shape_type := extractShapeType (cleanPrompt p),
            generation_method := "demo" } }, ?_, rfl, rfl⟩
          simp [generate3d, hpre, h1, h2, h3, hr]
  · intro hk
    have hs : sphereWords.any (fun w => occursIn w.data (cleanPrompt p)) = false := by
      rw [List.any_eq_false]
      intro w hw
      simp [hk w (by simp [hw])]
    have hc : cylinderWords.any (fun w => occursIn w.data (cleanPrompt p)) = false := by
      rw [List.any_eq_false]
      intro w hw
      simp [hk w (by simp [hw])]
    have hy : pyramidWords.any (fun w => occursIn w.data (cleanPrompt p)) = false := by
      rw [List.any_eq_false]
      intro w hw
      simp [hk w (by simp [hw])]
    simp [extractShapeType, hs, hc, hy]
  · intro hk
    have hs : sizeSmallWords.any (fun w => occursIn w.data (cleanPrompt p)) = false := by
      rw [List.any_eq_false]
      intro w hw
      simp [hk w (by simp [hw])]
    have hl : sizeLargeWords.any (fun w => occursIn w.data (cleanPrompt p)) = false := by
      rw [List.any_eq_false]
      intro w hw
      simp [hk w (by simp [hw])]
    simp [extractSize, hs, hl]

/-- Witness for C3: a keyword-free, banned-word-free prompt generates the
default cube successfully. -/
theorem c3_generate_succeeds_witness :
    ∃ r, generate3d ratOps "a plain box".data = Except.ok r ∧
      r.metadata.shape_type = "cube" := by
  obtain ⟨⟨r, hr, hshape, _⟩, hcube, _⟩ :=
    c3_generate_succeeds ratOps "a plain box".data (by with_unfolding_all decide)
  exact ⟨r, hr, by rw [hshape]; exact hcube (by with_unfolding_all decide)⟩
